import Mathlib

/-!
# Book Review API: reviews, derived book ratings and book queries

A shallow embedding of `src/models/review.model.js`, `src/routes/review.routes.js`
and `src/routes/book.routes.js`.

Conventions of the embedding.

* The document store is a pair of lists, the `books` and the `reviews` collection, in
  storage order. Object ids are natural numbers; within a collection `_id` is unique
  (`Store.wf`), as the database guarantees.
* JavaScript numbers are exact rationals (`ℚ`). The arithmetic of the rating hook
  (`$avg`, `* 10`, `Math.round`, `/ 10`) is therefore exact; `binary64_tenths_agree`
  compares it with the arithmetic of the runtime.
* A route handler is a function from the store and the request (after the `auth`
  middleware has accepted it and set `req.user`) to the new store and the response.
  Of the exceptions that end in a `catch` branch (status 500), the ones `save` raises
  are represented: schema validation and the unique index on `(user, book)`.
* The regular-expression test of the storage engine is a parameter `re` of the book
  listings. Its behaviour is fixed only on the patterns made of literal characters and
  `.` (`compile`, `matchAnywhere`, `Agrees`).
* Timestamps kept by the ORM from the wall clock (`updatedAt`) are not represented;
  `createdAt` of a book is, because the listings sort by it.
-/

namespace BookReview

/-! ## Data model -/

/-- A document of the `reviews` collection (`reviewSchema`). -/
structure Review where
  _id : Nat
  user : Nat
  book : Nat
  rating : ℚ
  comment : String
deriving DecidableEq

/-- Modelled from the spec: the `Book` schema of `src/models/book.model.js`, which is
not among the sources. Its fields are those of the spec's data model; the two derived
fields are ordinary schema paths with default 0, the ones the review hook writes. -/
structure Book where
  _id : Nat
  title : String
  author : String
  genre : String
  description : String
  publishedYear : Option ℚ
  averageRating : ℚ
  totalReviews : Nat
  createdAt : Nat
deriving DecidableEq

/-- The two collections. -/
structure Store where
  books : List Book
  reviews : List Review
deriving DecidableEq

/-- Ids are unique within each collection. -/
def Store.wf (s : Store) : Prop :=
  (s.books.map (fun b => b._id)).Nodup ∧ (s.reviews.map (fun r => r._id)).Nodup

instance (s : Store) : Decidable s.wf := by
  unfold Store.wf; infer_instance

/-- Payload of a response (`data`). -/
inductive Data where
  | none
  | review (r : Review)
  | book (b : Book)
  | books (bs : List Book)
deriving DecidableEq

/-- The `pagination` object of a listing response. -/
structure Pagination where
  current : Nat
  total : ℤ
  totalItems : Nat
deriving DecidableEq

/-- An HTTP response: status code and the JSON envelope
`{success, message?, errors?, data?, pagination?}`. `errors` lists the request fields
that failed validation, in the order of the validation chain. -/
structure Response where
  status : Nat
  success : Bool
  message : Option String
  errors : List String
  data : Data
  pagination : Option Pagination
deriving DecidableEq

/-! ## Generic collection helpers -/

/-- Apply `f` to the first element satisfying `p` (an update of one document). -/
def updateFirst {α : Type} (p : α → Bool) (f : α → α) : List α → List α
  | [] => []
  | x :: xs => if p x then f x :: xs else x :: updateFirst p f xs

/-- Remove the first element satisfying `p` (a deletion of one document). -/
def deleteFirst {α : Type} (p : α → Bool) : List α → List α
  | [] => []
  | x :: xs => if p x then xs else x :: deleteFirst p xs

/-! ## String helpers of the validation layer -/

/-- Characters matched by the JavaScript regular-expression class `\s`. -/
def isSpace (c : Char) : Bool :=
  let n := c.toNat
  n = 9 || n = 10 || n = 11 || n = 12 || n = 13 || n = 32 || n = 160 || n = 5760 ||
  (8192 ≤ n && n ≤ 8202) || n = 8232 || n = 8233 || n = 8239 || n = 8287 ||
  n = 12288 || n = 65279

/-- Remove leading whitespace. -/
def ltrim (cs : List Char) : List Char := cs.dropWhile isSpace

/-- Remove trailing whitespace. -/
def rtrim (cs : List Char) : List Char := (ltrim cs.reverse).reverse

/-- The `trim()` sanitizer: strip whitespace at both ends. -/
def trim (s : String) : String := String.mk (rtrim (ltrim s.data))

/-- The `trim()` sanitizer applied to a possibly absent body field: an absent field is
sanitized to the empty string. -/
def sanitize (v : Option String) : String := trim (v.getD "")

/-- The `notEmpty()` validator. -/
def notEmpty (s : String) : Bool := s.data.length ≠ 0

/-- The `isInt({ min, max })` validator on a possibly absent numeric body field. -/
def isInt (v : Option ℚ) (min max : ℤ) : Bool :=
  match v with
  | none => false
  | some q => q.den = 1 && min ≤ q.num && q.num ≤ max

/-! ## The review model: aggregate recomputation -/

/-- Function `Math.round`: nearest integer, halves towards plus infinity. -/
def Math.round (x : ℚ) : ℤ := ⌊x + 1 / 2⌋

/-! The hook is embedded in exact arithmetic. The next two definitions describe the
arithmetic of the runtime, for the comparison `binary64_tenths_agree`. -/

/-- Nearest integer, ties to the even one. -/
def roundHalfEven (q : ℚ) : ℤ :=
  if q - (⌊q⌋ : ℚ) < 1 / 2 then ⌊q⌋
  else if 1 / 2 < q - (⌊q⌋ : ℚ) then ⌊q⌋ + 1
  else if ⌊q⌋ % 2 = 0 then ⌊q⌋ else ⌊q⌋ + 1

/-- The binary64 number nearest to a positive rational: a multiple of 2^(e-52), where
2^e is the largest power of two not above the argument, ties going to the even
multiple. Range limits (overflow, subnormal numbers) are not represented. -/
def binary64 (x : ℚ) : ℚ :=
  (roundHalfEven (x / (2 : ℚ) ^ (Int.log 2 x - 52)) : ℚ) * (2 : ℚ) ^ (Int.log 2 x - 52)

/-- A row of the `$group` stage. -/
structure Stats where
  _id : Nat
  averageRating : ℚ
  totalReviews : Nat
deriving DecidableEq

/-- The pipeline `Review.aggregate([{ $match: { book } }, { $group: ... }])`: no row when
no review matches, otherwise one row with the `$avg` of the ratings and the count. -/
def Review.aggregate (reviews : List Review) (book : Nat) : List Stats :=
  let matched := reviews.filter (fun r => r.book = book)
  if matched.length = 0 then []
  else [{ _id := book,
          averageRating := (matched.map (fun r => r.rating)).sum / (matched.length : ℚ),
          totalReviews := matched.length }]

/-- Query `Book.findById`. -/
def Book.findById (books : List Book) (id : Nat) : Option Book :=
  books.find? (fun b => b._id = id)

/-- Update `Book.findByIdAndUpdate(id, { averageRating, totalReviews })`. -/
def Book.findByIdAndUpdate (books : List Book) (id : Nat) (averageRating : ℚ)
    (totalReviews : Nat) : List Book :=
  updateFirst (fun b => b._id = id)
    (fun b => { b with averageRating := averageRating, totalReviews := totalReviews }) books

/-- The hook `reviewSchema.post('save')`, run with `this` the saved review: recompute
the derived fields of `this.book`. -/
def postSave (s : Store) (this : Review) : Store :=
  match Review.aggregate s.reviews this.book with
  | stats :: _ =>
      { s with books := Book.findByIdAndUpdate s.books this.book
                 ((Math.round (stats.averageRating * 10) : ℚ) / 10) stats.totalReviews }
  | [] => { s with books := Book.findByIdAndUpdate s.books this.book 0 0 }

/-- Schema validation of a review document (`rating` within `min: 1`, `max: 5`;
`comment` required, hence non-empty). -/
def Review.validate (r : Review) : Bool :=
  1 ≤ r.rating && r.rating ≤ 5 && notEmpty r.comment

/-- Method `review.save()`: validate against the schema, write the document (insert it
when its `_id` is new, which the unique index on `(user, book)` refuses when the pair is
already stored; replace the stored one otherwise), then run the post-save hook.
`none` stands for the thrown error; nothing is written then. -/
def Review.save (s : Store) (r : Review) : Option Store :=
  if Review.validate r then
    if s.reviews.any (fun x => x._id = r._id) then
      some (postSave { s with reviews := updateFirst (fun x => x._id = r._id) (fun _ => r) s.reviews } r)
    else if s.reviews.any (fun x => x.user = r.user && x.book = r.book) then none
    else some (postSave { s with reviews := s.reviews ++ [r] } r)
  else none

/-- Query `Review.deleteOne({ _id })`. It is a model-level (query) operation: document
middleware, and so the `post('remove')` hook of the schema, is not run by it. -/
def Review.deleteOne (s : Store) (id : Nat) : Store :=
  { s with reviews := deleteFirst (fun r => r._id = id) s.reviews }

/-- The hook `reviewSchema.post('remove')`, written to rerun the post-save hook with
`this` the removed review. It is document middleware of `remove`; the delete route
removes through the query `deleteOne`, so no handler below runs it. -/
def postRemove (s : Store) (this : Review) : Store := postSave s this

/-- A fresh object id for a new review. -/
def newReviewId (s : Store) : Nat :=
  (s.reviews.map (fun r => r._id)).foldr max 0 + 1

/-! ## The review routes -/

/-- The JSON body of a review request: each field absent or present. -/
structure ReviewBody where
  rating : Option ℚ
  comment : Option String
deriving DecidableEq

/-- The chain `validateReview` followed by `validationResult(req)`: the fields in error. -/
def validateReview (body : ReviewBody) : List String :=
  (if isInt body.rating 1 5 then [] else ["rating"]) ++
  (if notEmpty (sanitize body.comment) then [] else ["comment"])

/-- Response `res.status(400).json({ success: false, errors })`. -/
def validationError (errors : List String) : Response :=
  { status := 400, success := false, message := none, errors := errors,
    data := Data.none, pagination := none }

/-- Response `res.status(code).json({ success: false, message })`. -/
def failure (code : Nat) (message : String) : Response :=
  { status := code, success := false, message := some message, errors := [],
    data := Data.none, pagination := none }

/-- Handler of `POST /reviews/:bookId`, for the authenticated user `user`. The comment
stored is the sanitized `req.body.comment`, which the schema setter `trim: true` trims
once more; an absent rating is stored as no valid rating (0), which `save` refuses. -/
def createReview (s : Store) (user bookId : Nat) (body : ReviewBody) : Store × Response :=
  let errors := validateReview body
  if errors.length ≠ 0 then (s, validationError errors)
  else
    match Book.findById s.books bookId with
    | none => (s, failure 404 "Book not found")
    | some _ =>
      match s.reviews.find? (fun r => r.user = user && r.book = bookId) with
      | some _ => (s, failure 400 "You have already reviewed this book")
      | none =>
        let review : Review :=
          { _id := newReviewId s, user := user, book := bookId,
            rating := body.rating.getD 0, comment := trim (sanitize body.comment) }
        match Review.save s review with
        | some s' =>
            (s', { status := 201, success := true, message := none, errors := [],
                   data := Data.review review, pagination := none })
        | none => (s, failure 500 "Error creating review")

/-- Handler of `PUT /reviews/:id`, for the authenticated user `user`. -/
def updateReview (s : Store) (user id : Nat) (body : ReviewBody) : Store × Response :=
  let errors := validateReview body
  if errors.length ≠ 0 then (s, validationError errors)
  else
    match s.reviews.find? (fun r => r._id = id && r.user = user) with
    | none => (s, failure 404 "Review not found or not authorized")
    | some found =>
      let review : Review :=
        { found with rating := body.rating.getD 0, comment := trim (sanitize body.comment) }
      match Review.save s review with
      | some s' =>
          (s', { status := 200, success := true, message := none, errors := [],
                 data := Data.review review, pagination := none })
      | none => (s, failure 500 "Error updating review")

/-- Handler of `DELETE /reviews/:id`, for the authenticated user `user`. -/
def deleteReview (s : Store) (user id : Nat) : Store × Response :=
  match s.reviews.find? (fun r => r._id = id && r.user = user) with
  | none => (s, failure 404 "Review not found or not authorized")
  | some _ =>
      (Review.deleteOne s id,
        { status := 200, success := true, message := some "Review deleted successfully",
          errors := [], data := Data.none, pagination := none })

/-- A request to the review routes. -/
inductive ReviewRequest where
  | create (user bookId : Nat) (body : ReviewBody)
  | update (user id : Nat) (body : ReviewBody)
  | delete (user id : Nat)
deriving DecidableEq

/-- Serve one request. -/
def serve (s : Store) : ReviewRequest → Store × Response
  | ReviewRequest.create user bookId body => createReview s user bookId body
  | ReviewRequest.update user id body => updateReview s user id body
  | ReviewRequest.delete user id => deleteReview s user id

/-- Serve requests one after the other; the store after the last one. -/
def serveAll (s : Store) : List ReviewRequest → Store
  | [] => s
  | req :: rest => serveAll (serve s req).1 rest

/-- The reviews referencing a book. -/
def reviewsOf (s : Store) (bookId : Nat) : List Review :=
  s.reviews.filter (fun r => r.book = bookId)

/-- The sum of the ratings of the reviews referencing a book. -/
def ratingSum (s : Store) (bookId : Nat) : ℚ :=
  ((reviewsOf s bookId).map (fun r => r.rating)).sum

/-! ## The book routes -/


/-- Function `Math.ceil`. -/
def Math.ceil (x : ℚ) : ℤ := ⌈x⌉

/-- The expression `parseInt(value) || fallback` on a query parameter: `none` is an absent
or non-numeric parameter (`NaN`), and 0 is falsy too. Negative numbers are not
represented. -/
def parseIntOr (value : Option Nat) (fallback : Nat) : Nat :=
  match value with
  | none => fallback
  | some 0 => fallback
  | some n => n

/-- The sort `{ createdAt: -1 }`: newest first. -/
def sortByCreatedAtDesc (books : List Book) : List Book :=
  books.insertionSort (fun a b => a.createdAt ≥ b.createdAt)

/-- The query `Book.find(query).skip(skip).limit(limit).sort({ createdAt: -1 })`: the
matching documents are sorted, then `skip` of them are passed over and at most `limit`
returned. -/
def Book.find (books : List Book) (query : Book → Bool) (skip limit : Nat) : List Book :=
  ((sortByCreatedAtDesc (books.filter query)).drop skip).take limit

/-- The query `Book.countDocuments(query)`. -/
def Book.countDocuments (books : List Book) (query : Book → Bool) : Nat :=
  (books.filter query).length

/-- Response `res.json({ success: true, data: books, pagination })`. -/
def listing (books : List Book) (page : Nat) (total limit : Nat) : Response :=
  { status := 200, success := true, message := none, errors := [], data := Data.books books,
    pagination := some { current := page, total := Math.ceil ((total : ℚ) / (limit : ℚ)),
                         totalItems := total } }

/-- The query string of `GET /books/search`. -/
structure SearchQuery where
  q : Option String
  page : Option Nat
  limit : Option Nat
deriving DecidableEq

/-- The filter `{ $or: [{ title: { $regex: q, $options: 'i' } }, { author: ... }] }`. -/
def searchFilter (re : String → String → Bool) (q : String) (b : Book) : Bool :=
  re q b.title || re q b.author

/-- Handler of `GET /books/search`. -/
def searchBooks (re : String → String → Bool) (books : List Book) (query : SearchQuery) :
    Response :=
  match query.q with
  | none => failure 400 "Search query is required"
  | some q =>
    if q = "" then failure 400 "Search query is required"
    else
      let page := parseIntOr query.page 1
      let limit := parseIntOr query.limit 10
      let skip := (page - 1) * limit
      let found := Book.find books (searchFilter re q) skip limit
      let total := Book.countDocuments books (searchFilter re q)
      listing found page total limit

/-! ### Regular expressions: the fragment of literals and `.` -/

/-- The characters with a special meaning in a regular expression. -/
def metaChars : List Char :=
  "^$.|?*+()[]".data ++ [Char.ofNat 92, Char.ofNat 123, Char.ofNat 125]

/-- An element of a pattern of the fragment: a literal character or `.`. -/
inductive Atom where
  | char (c : Char)
  | dot
deriving DecidableEq

/-- Read one pattern character; `none` when it is a metacharacter other than `.`. -/
def Atom.ofChar (c : Char) : Option Atom :=
  if c = '.' then some Atom.dot
  else if c ∈ metaChars then none
  else some (Atom.char c)

/-- Read a pattern of the fragment; `none` when the pattern is outside it. -/
def compile : List Char → Option (List Atom)
  | [] => some []
  | c :: cs =>
    match Atom.ofChar c, compile cs with
    | some a, some atoms => some (a :: atoms)
    | _, _ => none

/-- Does the atom accept the character, letter case ignored? `.` accepts every character
but the line feed. -/
def Atom.accepts : Atom → Char → Bool
  | Atom.char c, d => c.toLower = d.toLower
  | Atom.dot, d => d ≠ Char.ofNat 10

/-- Does the pattern match at the start of the subject? -/
def matchHere : List Atom → List Char → Bool
  | [], _ => true
  | _ :: _, [] => false
  | a :: atoms, c :: cs => a.accepts c && matchHere atoms cs

/-- Does the pattern match somewhere in the subject (an unanchored test)? -/
def matchAnywhere (atoms : List Atom) : List Char → Bool
  | [] => matchHere atoms []
  | c :: cs => matchHere atoms (c :: cs) || matchAnywhere atoms cs

/-- A regular-expression test that decides the patterns of the fragment as these must be
decided. -/
def Agrees (re : String → String → Bool) : Prop :=
  ∀ (pattern subject : String) (atoms : List Atom),
    compile pattern.data = some atoms → re pattern subject = matchAnywhere atoms subject.data

/-- The test restricted to the fragment; a pattern outside the fragment matches nothing
here. -/
def fragmentTest (pattern subject : String) : Bool :=
  match compile pattern.data with
  | some atoms => matchAnywhere atoms subject.data
  | none => false

/-- The text contains the query as a substring, letter case ignored. -/
def containsCI (text q : String) : Prop :=
  q.data.map Char.toLower <:+: text.data.map Char.toLower

instance (text q : String) : Decidable (containsCI text q) := by
  unfold containsCI; infer_instance

/-! ### Creating a book -/

/-- The JSON body of `POST /books`: the validated fields, and the two further schema
paths of `Book` that a body may carry. -/
structure BookBody where
  title : Option String
  author : Option String
  genre : Option String
  description : Option String
  publishedYear : Option ℚ
  averageRating : Option ℚ
  totalReviews : Option Nat
deriving DecidableEq

/-- The chain `validateBook` followed by `validationResult(req)`: the fields in error.
`currentYear` is `new Date().getFullYear()`. -/
def validateBook (currentYear : ℤ) (body : BookBody) : List String :=
  (if notEmpty (sanitize body.title) then [] else ["title"]) ++
  (if notEmpty (sanitize body.author) then [] else ["author"]) ++
  (if notEmpty (sanitize body.genre) then [] else ["genre"]) ++
  (if notEmpty (sanitize body.description) then [] else ["description"]) ++
  (match body.publishedYear with
    | none => []
    | some y => if isInt (some y) 1000 currentYear then [] else ["publishedYear"])

/-- Modelled from the spec: the constructor `new Book(req.body)` of the absent
`src/models/book.model.js`. Every schema path takes the value the (sanitized) body
carries for it, and its default, 0 for the two derived fields, when the body carries
none. -/
def Book.new (id now : Nat) (body : BookBody) : Book :=
  { _id := id, title := sanitize body.title, author := sanitize body.author,
    genre := sanitize body.genre, description := sanitize body.description,
    publishedYear := body.publishedYear,
    averageRating := body.averageRating.getD 0,
    totalReviews := body.totalReviews.getD 0,
    createdAt := now }

/-- A fresh object id for a new book. -/
def newBookId (s : Store) : Nat :=
  (s.books.map (fun b => b._id)).foldr max 0 + 1

/-- Handler of `POST /books`, at time `now`. -/
def createBook (currentYear : ℤ) (now : Nat) (s : Store) (body : BookBody) : Store × Response :=
  let errors := validateBook currentYear body
  if errors.length ≠ 0 then (s, validationError errors)
  else
    let book := Book.new (newBookId s) now body
    ({ s with books := s.books ++ [book] },
      { status := 201, success := true, message := none, errors := [],
        data := Data.book book, pagination := none })

/-! ## Example data -/


/-- A book without reviews. -/
def dune : Book :=
  { _id := 1, title := "Dune", author := "Frank Herbert", genre := "Science fiction",
    description := "Desert planet", publishedYear := some 1965, averageRating := 0,
    totalReviews := 0, createdAt := 100 }

/-- The store holding only `dune`. -/
def duneStore : Store := { books := [dune], reviews := [] }

/-- A store in which user 1 has reviewed `dune`. -/
def reviewedStore : Store :=
  { books := [{ dune with averageRating := 4, totalReviews := 1 }],
    reviews := [{ _id := 1, user := 1, book := 1, rating := 4, comment := "good" }] }

/-- The first request of the scenario: user 1 rates `dune` 4. -/
def firstReview : ReviewRequest := ReviewRequest.create 1 1 ⟨some 4, some "good"⟩

/-- The second request of the scenario: user 2 rates `dune` 5. -/
def secondReview : ReviewRequest := ReviewRequest.create 2 1 ⟨some 5, some " great "⟩

/-- The third request of the scenario: user 1 deletes their review, whose id is 1. -/
def removal : ReviewRequest := ReviewRequest.delete 1 1

/-- A book by Tolkien. -/
def hobbit : Book :=
  { _id := 2, title := "The Hobbit", author := "J.R.R. Tolkien", genre := "Fantasy",
    description := "There and back again", publishedYear := some 1937, averageRating := 0,
    totalReviews := 0, createdAt := 200 }

theorem isInt_iff (v : Option ℚ) (lo hi : ℤ) :
    isInt v lo hi = true ↔ ∃ k : ℤ, lo ≤ k ∧ k ≤ hi ∧ v = some (k : ℚ) := by
  cases v with
  | none => simp [isInt]
  | some q =>
    simp only [isInt, Bool.and_eq_true, decide_eq_true_eq, Option.some.injEq]
    constructor
    · rintro ⟨⟨hd, h1⟩, h2⟩
      exact ⟨q.num, h1, h2, (Rat.coe_int_num_of_den_eq_one hd).symm⟩
    · rintro ⟨k, h1, h2, rfl⟩
      simp [h1, h2]

theorem notEmpty_iff (t : String) : notEmpty t = true ↔ t ≠ "" := by
  rcases t with ⟨cs⟩
  cases cs with
  | nil => exact ⟨fun h => by simp [notEmpty] at h, fun h => absurd rfl h⟩
  | cons c cs =>
    have hne : String.mk (c :: cs) ≠ "" := by
      intro h
      have h2 := congrArg String.data h
      simp at h2
    exact ⟨fun _ => hne, fun _ => by simp [notEmpty]⟩

theorem validateReview_length (body : ReviewBody) :
    (validateReview body).length = 0 ↔
      (∃ k : ℤ, 1 ≤ k ∧ k ≤ 5 ∧ body.rating = some (k : ℚ)) ∧ trim (body.comment.getD "") ≠ "" := by
  rw [← isInt_iff, ← notEmpty_iff]
  unfold validateReview sanitize
  cases isInt body.rating 1 5 <;> cases notEmpty (trim (body.comment.getD "")) <;> simp


/-! ## Failing requests leave the store alone -/

/-- C5: a createReview or updateReview request whose rating is not an integer in [1,5],
or whose comment is empty after trimming whitespace, is answered with status 400 and a
non-empty list of validation errors, and the store is left as it was, whatever book or
review id the request names. -/
theorem invalid_review_body_rejected (s : Store) (user target : Nat) (body : ReviewBody)
    (h : (¬ ∃ k : ℤ, 1 ≤ k ∧ k ≤ 5 ∧ body.rating = some (k : ℚ)) ∨
      trim (body.comment.getD "") = "") :
    ((createReview s user target body).1 = s ∧
      (createReview s user target body).2.status = 400 ∧
      (createReview s user target body).2.success = false ∧
      (createReview s user target body).2.errors ≠ []) ∧
    ((updateReview s user target body).1 = s ∧
      (updateReview s user target body).2.status = 400 ∧
      (updateReview s user target body).2.success = false ∧
      (updateReview s user target body).2.errors ≠ []) := by
  have hlen : (validateReview body).length ≠ 0 := by
    rw [Ne, validateReview_length]
    rintro ⟨h1, h2⟩
    rcases h with h | h
    · exact h h1
    · exact h2 h
  have hne : validateReview body ≠ [] := fun h0 => hlen (by rw [h0]; rfl)
  simp [createReview, updateReview, hlen, validationError, hne]

/-- Instance of C5: rating 9 on a store with one review. -/
theorem invalid_review_body_rejected_witness :
    ((createReview reviewedStore 2 1 ⟨some 9, some "fine"⟩).1 = reviewedStore ∧
      (createReview reviewedStore 2 1 ⟨some 9, some "fine"⟩).2.status = 400 ∧
      (createReview reviewedStore 2 1 ⟨some 9, some "fine"⟩).2.success = false ∧
      (createReview reviewedStore 2 1 ⟨some 9, some "fine"⟩).2.errors ≠ []) ∧
    ((updateReview reviewedStore 2 1 ⟨some 9, some "fine"⟩).1 = reviewedStore ∧
      (updateReview reviewedStore 2 1 ⟨some 9, some "fine"⟩).2.status = 400 ∧
      (updateReview reviewedStore 2 1 ⟨some 9, some "fine"⟩).2.success = false ∧
      (updateReview reviewedStore 2 1 ⟨some 9, some "fine"⟩).2.errors ≠ []) :=
  invalid_review_body_rejected reviewedStore 2 1 ⟨some 9, some "fine"⟩
    (Or.inl (by
      rintro ⟨k, h1, h2, h3⟩
      have h4 : ((9 : ℤ) : ℚ) = (k : ℚ) := by simpa using h3
      have h5 : (9 : ℤ) = k := by exact_mod_cast h4
      omega))

/-- C3: when book B exists and user U already has a review of B, a createReview request
by U for B with a valid rating and comment is answered with status 400, success false
and the duplicate-review message, and the store is left as it was. -/
theorem duplicate_review_rejected (s : Store) (user bookId : Nat) (body : ReviewBody)
    (hbook : ∃ b ∈ s.books, b._id = bookId)
    (hrev : ∃ r ∈ s.reviews, r.user = user ∧ r.book = bookId)
    (hrating : ∃ k : ℤ, 1 ≤ k ∧ k ≤ 5 ∧ body.rating = some (k : ℚ))
    (hcomment : trim (body.comment.getD "") ≠ "") :
    (createReview s user bookId body).1 = s ∧
    (createReview s user bookId body).2.status = 400 ∧
    (createReview s user bookId body).2.success = false ∧
    (createReview s user bookId body).2.message = some "You have already reviewed this book" := by
  have hlen : (validateReview body).length = 0 := (validateReview_length body).2 ⟨hrating, hcomment⟩
  have hb : (Book.findById s.books bookId).isSome = true := by
    unfold Book.findById
    rw [List.find?_isSome]
    obtain ⟨b, hb, hid⟩ := hbook
    exact ⟨b, hb, by simp [hid]⟩
  have hr : (s.reviews.find? (fun r => decide (r.user = user) && decide (r.book = bookId))).isSome = true := by
    rw [List.find?_isSome]
    obtain ⟨r, hr, hu, hbk⟩ := hrev
    exact ⟨r, hr, by simp [hu, hbk]⟩
  obtain ⟨b, hb⟩ := Option.isSome_iff_exists.1 hb
  obtain ⟨r, hr⟩ := Option.isSome_iff_exists.1 hr
  simp [createReview, hlen, hb, hr, failure]

/-- Instance of C3: user 1 reviews `dune` a second time. -/
theorem duplicate_review_rejected_witness :
    (createReview reviewedStore 1 1 ⟨some 5, some "again"⟩).1 = reviewedStore ∧
    (createReview reviewedStore 1 1 ⟨some 5, some "again"⟩).2.status = 400 ∧
    (createReview reviewedStore 1 1 ⟨some 5, some "again"⟩).2.success = false ∧
    (createReview reviewedStore 1 1 ⟨some 5, some "again"⟩).2.message =
      some "You have already reviewed this book" :=
  duplicate_review_rejected reviewedStore 1 1 ⟨some 5, some "again"⟩
    ⟨_, List.mem_singleton.2 rfl, rfl⟩ ⟨_, List.mem_singleton.2 rfl, rfl, rfl⟩
    ⟨5, by decide, by decide, by simp⟩ (by decide)

/-! ## Ownership -/

theorem find_owned_none (reviews : List Review) (V id : Nat)
    (h : ∀ r ∈ reviews, r._id = id → r.user ≠ V) :
    reviews.find? (fun r => decide (r._id = id) && decide (r.user = V)) = none := by
  rw [List.find?_eq_none]
  intro r hr hp
  simp only [Bool.and_eq_true, decide_eq_true_eq] at hp
  exact h r hr hp.1 hp.2

theorem owner_of_id (s : Store) (hwf : s.wf) (R : Review) (hR : R ∈ s.reviews) :
    ∀ r ∈ s.reviews, r._id = R._id → r.user = R.user := by
  intro r hr hid
  rw [List.inj_on_of_nodup_map hwf.2 hr hR hid]

/-- C4 (counterexample): the review with id 1 of `reviewedStore` is owned by user 1; an
updateReview request for it by user 2 with rating 9 is answered with status 400, not
404. -/
theorem nonowner_update_invalid_body_status :
    reviewedStore.wf ∧
    (∃ R ∈ reviewedStore.reviews, R._id = 1 ∧ R.user = 1) ∧
    (updateReview reviewedStore 2 1 ⟨some 9, some "fine"⟩).2.status = 400 := by
  decide!

/-- C4 (amended): for every store with unique ids, every review R and every user V other
than R's owner, an updateReview request for R's id made by V with a valid rating and
comment, and a deleteReview request for R's id made by V, are answered with status 404
and success false, and leave the store as it was. -/
theorem nonowner_request_not_found (s : Store) (R : Review) (V : Nat) (body : ReviewBody)
    (hwf : s.wf) (hR : R ∈ s.reviews) (hV : V ≠ R.user)
    (hrating : ∃ k : ℤ, 1 ≤ k ∧ k ≤ 5 ∧ body.rating = some (k : ℚ))
    (hcomment : trim (body.comment.getD "") ≠ "") :
    ((updateReview s V R._id body).1 = s ∧
      (updateReview s V R._id body).2.status = 404 ∧
      (updateReview s V R._id body).2.success = false) ∧
    ((deleteReview s V R._id).1 = s ∧
      (deleteReview s V R._id).2.status = 404 ∧
      (deleteReview s V R._id).2.success = false) := by
  have hlen : (validateReview body).length = 0 := (validateReview_length body).2 ⟨hrating, hcomment⟩
  have hnone := find_owned_none s.reviews V R._id
    (fun r hr hid hu => hV (by rw [← hu, owner_of_id s hwf R hR r hr hid]))
  simp [updateReview, deleteReview, hlen, hnone, failure]

/-- Instance of C4 (amended): user 2 addresses the review of user 1. -/
theorem nonowner_request_not_found_witness :
    ((updateReview reviewedStore 2 1 ⟨some 3, some "fine"⟩).1 = reviewedStore ∧
      (updateReview reviewedStore 2 1 ⟨some 3, some "fine"⟩).2.status = 404 ∧
      (updateReview reviewedStore 2 1 ⟨some 3, some "fine"⟩).2.success = false) ∧
    ((deleteReview reviewedStore 2 1).1 = reviewedStore ∧
      (deleteReview reviewedStore 2 1).2.status = 404 ∧
      (deleteReview reviewedStore 2 1).2.success = false) :=
  nonowner_request_not_found reviewedStore
    { _id := 1, user := 1, book := 1, rating := 4, comment := "good" } 2
    ⟨some 3, some "fine"⟩ (by decide) (List.mem_singleton.2 rfl) (by decide)
    ⟨3, by decide, by decide, by simp⟩ (by decide)

/-- C6: for every user V, review id and request body, and any two stores, one holding no
review with that id and one holding a review with that id owned by a user other than V,
updateReview answers with the same response (status and body) in both, and so does
deleteReview. -/
theorem review_existence_not_disclosed (s₁ s₂ : Store) (V id : Nat) (body : ReviewBody)
    (habsent : ∀ r ∈ s₁.reviews, r._id ≠ id)
    (hwf : s₂.wf)
    (hforeign : ∃ R ∈ s₂.reviews, R._id = id ∧ R.user ≠ V) :
    (updateReview s₁ V id body).2 = (updateReview s₂ V id body).2 ∧
    (deleteReview s₁ V id).2 = (deleteReview s₂ V id).2 := by
  obtain ⟨R, hR, hid, hV⟩ := hforeign
  have h1 := find_owned_none s₁.reviews V id (fun r hr hid => absurd hid (habsent r hr))
  have h2 := find_owned_none s₂.reviews V id
    (fun r hr hrid hu => hV (by rw [← hu, owner_of_id s₂ hwf R hR r hr (hrid.trans hid.symm)]))
  by_cases hlen : (validateReview body).length = 0 <;>
    simp [updateReview, deleteReview, hlen, h1, h2]

/-- Instance of C6: review 1 is absent from `duneStore` and owned by user 1 in
`reviewedStore`; user 2 asks. -/
theorem review_existence_not_disclosed_witness :
    (updateReview duneStore 2 1 ⟨some 3, some "fine"⟩).2 =
      (updateReview reviewedStore 2 1 ⟨some 3, some "fine"⟩).2 ∧
    (deleteReview duneStore 2 1).2 = (deleteReview reviewedStore 2 1).2 :=
  review_existence_not_disclosed duneStore reviewedStore 2 1 ⟨some 3, some "fine"⟩
    (by decide) (by decide) (by decide)

/-! ## Aggregate recomputation -/

theorem find?_updateFirst {α : Type} (p : α → Bool) (f : α → α) (hp : ∀ x, p (f x) = p x)
    (l : List α) : (updateFirst p f l).find? p = (l.find? p).map f := by
  induction l with
  | nil => rfl
  | cons x xs ih =>
    by_cases hx : p x = true
    · simp [updateFirst, hx, List.find?, hp]
    · simp [updateFirst, hx, List.find?, ih]

/-- The hook rewrites the collection of books through one `findByIdAndUpdate`. -/
theorem postSave_eq (s : Store) (this : Review) :
    postSave s this =
      { books := Book.findByIdAndUpdate s.books this.book
          (if (reviewsOf s this.book).length = 0 then 0
           else (Math.round (ratingSum s this.book / ((reviewsOf s this.book).length : ℚ) * 10) : ℚ) / 10)
          (reviewsOf s this.book).length,
        reviews := s.reviews } := by
  unfold postSave Review.aggregate ratingSum reviewsOf
  by_cases h : (List.filter (fun r => decide (r.book = this.book)) s.reviews).length = 0
  · simp only [h, if_true]
  · simp only [h, if_false]


theorem findById_postSave (s : Store) (this : Review) :
    Book.findById (postSave s this).books this.book =
      (Book.findById s.books this.book).map (fun b =>
        { b with
          averageRating :=
            if (reviewsOf s this.book).length = 0 then 0
            else (Math.round (ratingSum s this.book / ((reviewsOf s this.book).length : ℚ) * 10) : ℚ) / 10,
          totalReviews := (reviewsOf s this.book).length }) := by
  rw [postSave_eq]
  unfold Book.findById Book.findByIdAndUpdate
  rw [find?_updateFirst]
  intro x
  rfl

theorem rtrim_eq (cs : List Char) : rtrim cs = cs.rdropWhile isSpace := rfl

theorem ltrim_rtrim_ltrim (cs : List Char) : ltrim (rtrim (ltrim cs)) = rtrim (ltrim cs) := by
  unfold ltrim
  rw [rtrim_eq, List.dropWhile_eq_self_iff]
  intro hl
  obtain ⟨t, ht⟩ := List.rdropWhile_prefix isSpace (l := List.dropWhile isSpace cs)
  have hpos : 0 < (List.dropWhile isSpace cs).length := by
    rw [← ht, List.length_append]; omega
  have hnot := List.dropWhile_get_zero_not isSpace cs hpos
  revert hl hnot hpos ht
  generalize List.rdropWhile isSpace (List.dropWhile isSpace cs) = A
  generalize List.dropWhile isSpace cs = D
  intro hl ht hpos hnot
  cases A with
  | nil => simp at hl
  | cons a A' =>
    subst ht
    simpa using hnot

theorem trim_trim (s : String) : trim (trim s) = trim s := by
  unfold trim
  simp only
  rw [ltrim_rtrim_ltrim, rtrim_eq, rtrim_eq, List.rdropWhile_idempotent]

theorem le_foldr_max (l : List Nat) (x : Nat) (h : x ∈ l) : x ≤ l.foldr max 0 := by
  induction l with
  | nil => simp at h
  | cons a l ih =>
    simp only [List.foldr_cons]
    rcases List.mem_cons.1 h with h | h
    · rw [h]; exact le_max_left _ _
    · exact le_trans (ih h) (le_max_right _ _)

theorem newReviewId_fresh (s : Store) :
    s.reviews.any (fun x => decide (x._id = newReviewId s)) = false := by
  rw [List.any_eq_false]
  intro r hr
  have h := le_foldr_max (s.reviews.map (fun r => r._id)) r._id (List.mem_map_of_mem _ hr)
  simp only [decide_eq_true_eq, newReviewId]
  omega

theorem validate_of_valid (id user book : Nat) (body : ReviewBody)
    (hrating : ∃ k : ℤ, 1 ≤ k ∧ k ≤ 5 ∧ body.rating = some (k : ℚ))
    (hcomment : trim (body.comment.getD "") ≠ "") :
    Review.validate { _id := id, user := user, book := book, rating := body.rating.getD 0,
                      comment := trim (sanitize body.comment) } = true := by
  obtain ⟨k, h1, h2, h3⟩ := hrating
  have hc : notEmpty (trim (sanitize body.comment)) = true := by
    rw [sanitize, trim_trim, notEmpty_iff]
    exact hcomment
  have hk1 : (1 : ℚ) ≤ (k : ℚ) := by exact_mod_cast h1
  have hk2 : (k : ℚ) ≤ 5 := by exact_mod_cast h2
  simp [Review.validate, h3, hc, hk1, hk2]

/-- The successful paths are taken: a valid body for an existing book the user has not
reviewed yet is answered 201, and a valid body for a review of the user is answered
200. -/
theorem valid_requests_succeed (s : Store) (user target : Nat) (body : ReviewBody)
    (hrating : ∃ k : ℤ, 1 ≤ k ∧ k ≤ 5 ∧ body.rating = some (k : ℚ))
    (hcomment : trim (body.comment.getD "") ≠ "") :
    ((∃ b ∈ s.books, b._id = target) → (∀ r ∈ s.reviews, ¬(r.user = user ∧ r.book = target)) →
      (createReview s user target body).2.status = 201) ∧
    ((∃ r ∈ s.reviews, r._id = target ∧ r.user = user) →
      (updateReview s user target body).2.status = 200) := by
  have hlen : (validateReview body).length = 0 := (validateReview_length body).2 ⟨hrating, hcomment⟩
  constructor
  · intro hbook hnew
    have hb : (Book.findById s.books target).isSome = true := by
      unfold Book.findById
      rw [List.find?_isSome]
      obtain ⟨b, hb, hid⟩ := hbook
      exact ⟨b, hb, by simp [hid]⟩
    obtain ⟨b, hb⟩ := Option.isSome_iff_exists.1 hb
    have hr : s.reviews.find? (fun r => decide (r.user = user) && decide (r.book = target)) = none := by
      rw [List.find?_eq_none]
      intro r hr hp
      simp only [Bool.and_eq_true, decide_eq_true_eq] at hp
      exact hnew r hr hp
    have hany : s.reviews.any (fun x => decide (x.user = user) && decide (x.book = target)) = false := by
      rw [List.any_eq_false]
      intro r hr hp
      simp only [Bool.and_eq_true, decide_eq_true_eq] at hp
      exact hnew r hr hp
    have hv := validate_of_valid (newReviewId s) user target body hrating hcomment
    simp [createReview, hlen, hb, hr, Review.save, hv, newReviewId_fresh, hany]
  · intro hrev
    have hsome : (s.reviews.find? (fun r => decide (r._id = target) && decide (r.user = user))).isSome = true := by
      rw [List.find?_isSome]
      obtain ⟨r, hr, h1, h2⟩ := hrev
      exact ⟨r, hr, by simp [h1, h2]⟩
    obtain ⟨found, hfound⟩ := Option.isSome_iff_exists.1 hsome
    have hmem := List.mem_of_find?_eq_some hfound
    have hv := validate_of_valid found._id found.user found.book body hrating hcomment
    have hany : s.reviews.any (fun x => decide (x._id = found._id)) = true := by
      rw [List.any_eq_true]
      exact ⟨found, hmem, by simp⟩
    simp [updateReview, hlen, hfound, Review.save, hv, hany]

/-- The hook gives a book without reviews the values 0 and 0. -/
theorem postSave_without_reviews (s : Store) (this : Review)
    (h : ∀ r ∈ s.reviews, r.book ≠ this.book) :
    ∀ b, Book.findById (postSave s this).books this.book = some b →
      b.averageRating = 0 ∧ b.totalReviews = 0 := by
  intro b hb
  have hnil : reviewsOf s this.book = [] := by
    unfold reviewsOf
    rw [List.filter_eq_nil_iff]
    intro r hr
    simpa using h r hr
  rw [findById_postSave, hnil] at hb
  cases hfind : Book.findById s.books this.book with
  | none => rw [hfind] at hb; simp at hb
  | some b0 =>
    rw [hfind] at hb
    simp only [Option.map_some', Option.some.injEq, List.length_nil, if_true] at hb
    rw [← hb]
    exact ⟨rfl, rfl⟩

/-- The delete route never writes to the collection of books. -/
theorem deleteReview_books (s : Store) (user id : Nat) :
    (deleteReview s user id).1.books = s.books := by
  unfold deleteReview
  cases s.reviews.find? (fun r => decide (r._id = id) && decide (r.user = user)) <;> rfl

/-- C1 (evaluation at the failing input): on `dune` without reviews, user 1 rating 4
gives (4.0, 1) and user 2 rating 5 gives (4.5, 2); the deletion of user 1's review
succeeds and leaves one review, of rating 5, while the book still reads (4.5, 2). -/
theorem delete_leaves_aggregate_stale :
    (serveAll duneStore [firstReview]).books =
      [{ dune with averageRating := 4, totalReviews := 1 }] ∧
    (serveAll duneStore [firstReview, secondReview]).books =
      [{ dune with averageRating := 9 / 2, totalReviews := 2 }] ∧
    (serve (serveAll duneStore [firstReview, secondReview]) removal).2.status = 200 ∧
    (serveAll duneStore [firstReview, secondReview, removal]).reviews =
      [{ _id := 2, user := 2, book := 1, rating := 5, comment := "great" }] ∧
    (serveAll duneStore [firstReview, secondReview, removal]).books =
      [{ dune with averageRating := 9 / 2, totalReviews := 2 }] := by
  decide!


/-- Had the remove hook run after the deletion of the scenario, with the removed review
as `this`, the book would read (5.0, 1). -/
theorem postRemove_after_delete :
    (postRemove (serveAll duneStore [firstReview, secondReview, removal])
      { _id := 1, user := 1, book := 1, rating := 4, comment := "good" }).books =
      [{ dune with averageRating := 5, totalReviews := 1 }] := by
  decide!

/-! ## Creating a book -/

/-- A body that carries neither derived field yields a book with both equal to 0. -/
theorem createBook_defaults (currentYear : ℤ) (now : Nat) (s : Store) (body : BookBody)
    (havg : body.averageRating = none) (htot : body.totalReviews = none)
    (hvalid : validateBook currentYear body = []) :
    ∃ b, (createBook currentYear now s body).2.data = Data.book b ∧
      (createBook currentYear now s body).2.status = 201 ∧
      b ∈ (createBook currentYear now s body).1.books ∧
      b.averageRating = 0 ∧ b.totalReviews = 0 := by
  refine ⟨Book.new (newBookId s) now body, ?_⟩
  simp [createBook, hvalid, Book.new, havg, htot]

/-! ## Listing books -/

theorem compile_plain (cs : List Char) (h : ∀ c ∈ cs, c ∉ metaChars) :
    compile cs = some (cs.map Atom.char) := by
  induction cs with
  | nil => rfl
  | cons c cs ih =>
    have hc : c ∉ metaChars := h c (List.mem_cons_self c cs)
    have hdot : c ≠ '.' := by
      intro hcd
      exact hc (hcd ▸ (by decide : '.' ∈ metaChars))
    have hcs := ih (fun d hd => h d (List.mem_cons_of_mem c hd))
    simp [compile, Atom.ofChar, hdot, hc, hcs]

theorem matchHere_plain (qs cs : List Char) :
    matchHere (qs.map Atom.char) cs = true ↔ qs.map Char.toLower <+: cs.map Char.toLower := by
  induction qs generalizing cs with
  | nil => simp [matchHere]
  | cons a qs ih =>
    cases cs with
    | nil => simp [matchHere]
    | cons c cs =>
      simp only [List.map_cons, matchHere, Atom.accepts, Bool.and_eq_true, decide_eq_true_eq,
        List.cons_prefix_cons, ih]

theorem matchAnywhere_plain (qs cs : List Char) :
    matchAnywhere (qs.map Atom.char) cs = true ↔ qs.map Char.toLower <:+: cs.map Char.toLower := by
  induction cs with
  | nil =>
    simp only [matchAnywhere, matchHere_plain, List.map_nil, List.prefix_nil, List.infix_nil]
  | cons c cs ih =>
    simp only [matchAnywhere, Bool.or_eq_true, matchHere_plain, ih, List.map_cons,
      List.infix_cons_iff]

theorem fragmentTest_agrees : Agrees fragmentTest := by
  intro pattern subject atoms h
  simp only [fragmentTest, h]

/-- An agreeing test decides a query free of metacharacters as a substring test, letter
case ignored. -/
theorem plain_test_iff (re : String → String → Bool) (hre : Agrees re) (q text : String)
    (hplain : ∀ c ∈ q.data, c ∉ metaChars) : re q text = true ↔ containsCI text q := by
  rw [hre q text _ (compile_plain q.data hplain), matchAnywhere_plain]
  rfl

/-- C8 (counterexample): the query `.` matches the book `dune`, whose title and author
do not contain a full stop. -/
theorem search_dot_matches_without_substring :
    (searchBooks fragmentTest [dune] ⟨some ".", none, none⟩).data = Data.books [dune] ∧
    [dune].filter (searchFilter fragmentTest ".") = [dune] ∧
    ¬ containsCI dune.title "." ∧ ¬ containsCI dune.author "." := by
  decide!

/-- C8 (amended): for every non-empty query q free of regular-expression metacharacters
and every collection of books, the books matched by searchBooks(q) before pagination,
which pagination.totalItems counts, are exactly the books whose title or author
contains q as a case-insensitive substring; searchBooks with an empty or absent q is
answered with status 400. -/
theorem search_plain_query (re : String → String → Bool) (hre : Agrees re) (books : List Book)
    (q : String) (page limit : Option Nat) (hq : q ≠ "")
    (hplain : ∀ c ∈ q.data, c ∉ metaChars) :
    (∀ b, b ∈ books.filter (searchFilter re q) ↔
      b ∈ books ∧ (containsCI b.title q ∨ containsCI b.author q)) ∧
    (searchBooks re books ⟨some q, page, limit⟩).status = 200 ∧
    (∃ p, (searchBooks re books ⟨some q, page, limit⟩).pagination = some p ∧
      p.totalItems = (books.filter (searchFilter re q)).length) ∧
    (searchBooks re books ⟨none, page, limit⟩).status = 400 ∧
    (searchBooks re books ⟨some "", page, limit⟩).status = 400 := by
  refine ⟨?_, ?_, ?_, rfl, rfl⟩
  · intro b
    simp only [List.mem_filter, searchFilter, Bool.or_eq_true, plain_test_iff re hre q _ hplain]
  · simp [searchBooks, hq, listing]
  · simp [searchBooks, hq, listing, Book.countDocuments]

/-- Instance of C8 (amended): the query `tolkien` matches the book by J.R.R. Tolkien
and not `dune`. -/
theorem search_plain_query_witness :
    hobbit ∈ [dune, hobbit].filter (searchFilter fragmentTest "tolkien") ∧
    dune ∉ [dune, hobbit].filter (searchFilter fragmentTest "tolkien") ∧
    (searchBooks fragmentTest [dune, hobbit] ⟨some "tolkien", none, none⟩).status = 200 ∧
    (searchBooks fragmentTest [dune, hobbit] ⟨none, none, none⟩).status = 400 ∧
    (searchBooks fragmentTest [dune, hobbit] ⟨some "", none, none⟩).status = 400 := by
  obtain ⟨h1, h2, -, h4, h5⟩ :=
    search_plain_query fragmentTest fragmentTest_agrees [dune, hobbit] "tolkien" none none
      (by decide) (by decide)
  refine ⟨(h1 hobbit).2 ⟨by decide, Or.inr (by decide)⟩, ?_, h2, h4, h5⟩
  intro hmem
  exact absurd ((h1 dune).1 hmem).2 (by decide)

/-! ## Exact arithmetic against binary64 -/

theorem roundHalfEven_error (q : ℚ) : |(roundHalfEven q : ℚ) - q| ≤ 1 / 2 := by
  have h1 : (⌊q⌋ : ℚ) ≤ q := Int.floor_le q
  have h2 : q < (⌊q⌋ : ℚ) + 1 := Int.lt_floor_add_one q
  rw [abs_le]
  unfold roundHalfEven
  split_ifs <;> push_cast <;> constructor <;> linarith

/-- Rounding to binary64 has relative error at most 2^-53. -/
theorem binary64_error (x : ℚ) (hx : 0 < x) : |binary64 x - x| ≤ x / 2 ^ 53 := by
  have hu : (0 : ℚ) < (2 : ℚ) ^ (Int.log 2 x - 52) := zpow_pos (by norm_num) _
  have hle : (2 : ℚ) ^ Int.log 2 x ≤ x := by
    have := Int.zpow_log_le_self (b := 2) (by norm_num) hx
    simpa using this
  have hsplit : (2 : ℚ) ^ (Int.log 2 x - 52) = (2 : ℚ) ^ Int.log 2 x / 2 ^ 52 := by
    rw [zpow_sub₀ (by norm_num)]
    norm_cast
  have herr := roundHalfEven_error (x / (2 : ℚ) ^ (Int.log 2 x - 52))
  have hid : binary64 x - x =
      ((roundHalfEven (x / (2 : ℚ) ^ (Int.log 2 x - 52)) : ℚ) - x / (2 : ℚ) ^ (Int.log 2 x - 52)) *
        (2 : ℚ) ^ (Int.log 2 x - 52) := by
    unfold binary64
    field_simp
  rw [hid, abs_mul, abs_of_pos hu]
  calc _ ≤ 1 / 2 * (2 : ℚ) ^ (Int.log 2 x - 52) := by
        exact mul_le_mul_of_nonneg_right herr hu.le
    _ = (2 : ℚ) ^ Int.log 2 x / 2 ^ 53 := by rw [hsplit]; ring
    _ ≤ x / 2 ^ 53 := by
        apply div_le_div_of_nonneg_right hle (by positivity)

/-- At the means 1.05, 1.15, ..., 4.95 the product by ten is computed without error. -/
theorem binary64_boundaries :
    ∀ i ∈ List.range 40,
      binary64 (binary64 ((2 * (i : ℚ) + 21) / 20) * 10) = (2 * (i : ℚ) + 21) / 2 := by
  decide!


/-- For n ratings, each an integer in 1..5, of sum S, with n below 2^45: the integer
`Math.round(avg * 10)` computed in binary64, from the quotient rounded to binary64 and
its product by ten rounded again, is the one computed in exact arithmetic. -/
theorem binary64_tenths_agree (S n : ℕ) (hn : 1 ≤ n) (hlo : n ≤ S) (hhi : S ≤ 5 * n)
    (hbound : n < 2 ^ 45) :
    Math.round (binary64 (binary64 ((S : ℚ) / (n : ℚ)) * 10)) =
      Math.round ((S : ℚ) / (n : ℚ) * 10) := by
  have hnq : (0 : ℚ) < (n : ℚ) := by exact_mod_cast hn
  have hx1 : (1 : ℚ) ≤ (S : ℚ) / (n : ℚ) := by
    rw [le_div_iff₀ hnq]; exact_mod_cast (by omega : 1 * n ≤ S)
  have hx5 : (S : ℚ) / (n : ℚ) ≤ 5 := by
    rw [div_le_iff₀ hnq]; exact_mod_cast hhi
  generalize hxdef : (S : ℚ) / (n : ℚ) = x at hx1 hx5 ⊢
  have hy := abs_le.1 (binary64_error x (by linarith))
  have hwpos : 0 < binary64 x * 10 := by
    have : x / 2 ^ 53 ≤ x / 2 := by
      apply div_le_div_of_nonneg_left (by linarith) (by norm_num) (by norm_num)
    linarith [hy.1]
  have hz := abs_le.1 (binary64_error (binary64 x * 10) hwpos)
  have hsmall : x / 2 ^ 53 ≤ 5 / 2 ^ 53 := by
    apply div_le_div_of_nonneg_right hx5 (by positivity)
  have hw5 : binary64 x * 10 ≤ 51 := by
    have : (5 : ℚ) / 2 ^ 53 ≤ 1 / 10 := by norm_num
    linarith [hy.2]
  have hsmall2 : binary64 x * 10 / 2 ^ 53 ≤ 51 / 2 ^ 53 := by
    apply div_le_div_of_nonneg_right hw5 (by positivity)
  -- the distance of the computed value from the exact one
  have herr1 : binary64 (binary64 x * 10) - x * 10 ≤ 101 / 2 ^ 53 := by linarith [hy.2, hz.2]
  have herr2 : -(101 / 2 ^ 53) ≤ binary64 (binary64 x * 10) - x * 10 := by linarith [hy.1, hz.1]
  -- the exact value and its distance from the rounding boundaries
  unfold Math.round
  have hk1 : ((⌊x * 10 + 1 / 2⌋ : ℤ) : ℚ) ≤ x * 10 + 1 / 2 := Int.floor_le _
  have hk2 : x * 10 + 1 / 2 < ((⌊x * 10 + 1 / 2⌋ : ℤ) : ℚ) + 1 := Int.lt_floor_add_one _
  generalize ⌊x * 10 + 1 / 2⌋ = k at hk1 hk2 ⊢
  have hxe : x * 10 + 1 / 2 = ((20 * S + n : ℤ) : ℚ) / ((2 * n : ℤ) : ℚ) := by
    rw [← hxdef]; push_cast; field_simp; ring
  have hD : (0 : ℚ) < ((2 * n : ℤ) : ℚ) := by push_cast; linarith
  have hgap : (1 : ℚ) / (2 * n) > 101 / 2 ^ 53 := by
    rw [gt_iff_lt, div_lt_div_iff₀ (by positivity) (by positivity)]
    have : (n : ℚ) < 2 ^ 45 := by exact_mod_cast hbound
    linarith
  have hupI : (20 * S + n : ℤ) + 1 ≤ (k + 1) * (2 * n) := by
    have : ((20 * S + n : ℤ) : ℚ) < ((k + 1 : ℤ) : ℚ) * ((2 * n : ℤ) : ℚ) := by
      rw [← div_lt_iff₀ hD, ← hxe]; push_cast; linarith
    have h2 : (20 * S + n : ℤ) < (k + 1) * (2 * n) := by exact_mod_cast this
    exact h2
  have hup : x * 10 + 1 / 2 ≤ (k : ℚ) + 1 - 1 / (2 * n) := by
    rw [hxe, div_le_iff₀ hD]
    have : (((20 * S + n : ℤ) + 1 : ℤ) : ℚ) ≤ (((k + 1) * (2 * n) : ℤ) : ℚ) := by exact_mod_cast hupI
    push_cast at this ⊢
    field_simp
    linarith
  have hloI : k * (2 * n) ≤ (20 * S + n : ℤ) := by
    have : ((k : ℤ) : ℚ) * ((2 * n : ℤ) : ℚ) ≤ ((20 * S + n : ℤ) : ℚ) := by
      rw [← le_div_iff₀ hD, ← hxe]; exact hk1
    exact_mod_cast this
  rw [Int.floor_eq_iff]
  constructor
  · rcases eq_or_lt_of_le hloI with heq | hlt
    · -- on a boundary the computation is exact
      have hxk : x = (2 * (k : ℚ) - 1) / 20 := by
        have h1 : x * 10 + 1 / 2 = (k : ℚ) := by
          rw [hxe, div_eq_iff hD.ne']
          exact_mod_cast heq.symm
        linarith
      have hk11 : 11 ≤ k := by
        have h10 : ((10 : ℤ) : ℚ) < (k : ℚ) := by push_cast; linarith
        have h10i : (10 : ℤ) < k := by exact_mod_cast h10
        omega
      have hk50 : k ≤ 50 := by
        have h51 : (k : ℚ) < ((51 : ℤ) : ℚ) := by push_cast; linarith
        have h51i : k < (51 : ℤ) := by exact_mod_cast h51
        omega
      obtain ⟨i, hi⟩ : ∃ i : ℕ, k = (i : ℤ) + 11 := ⟨(k - 11).toNat, by omega⟩
      have hmem : i ∈ List.range 40 := by
        rw [List.mem_range]; omega
      have hb := binary64_boundaries i hmem
      have hxi : x = (2 * (i : ℚ) + 21) / 20 := by
        rw [hxk, hi]; push_cast; ring
      rw [hxi, hb, hi]
      push_cast
      linarith
    · have hlo : (k : ℚ) + 1 / (2 * n) ≤ x * 10 + 1 / 2 := by
        rw [hxe, le_div_iff₀ hD]
        have : ((k * (2 * n) + 1 : ℤ) : ℚ) ≤ ((20 * S + n : ℤ) : ℚ) := by exact_mod_cast hlt
        push_cast at this ⊢
        field_simp
        linarith
      linarith
  · linarith


/-- Instance: 20 ratings of sum 81 give 41 tenths in binary64 as in exact arithmetic. -/
theorem binary64_tenths_agree_witness :
    Math.round (binary64 (binary64 (((81 : ℕ) : ℚ) / ((20 : ℕ) : ℚ)) * 10)) = 41 :=
  (binary64_tenths_agree 81 20 (by decide) (by decide) (by decide) (by decide)).trans
    (by decide!)

end BookReview
